import Mathlib

/-!
Verification of the RESTful-API assessment repository: an in-memory CRUD
service over users, products and orders.

The data store (`src/data/store.js`, shipped inside `src/middleware/notFound.js`
after a file separator) keeps each collection as a JS array of plain objects and
implements `getAll` / `getById` / `create` / `update` / `delete` by linear scans
and object-spread merges.  We embed JS objects as association lists over a small
value type and embed each store primitive and each route handler directly from
the source.

Conventions of the embedding:
* JS numbers are modelled as rationals (`ℚ`); the API never relies on float
  rounding.  A missing or non-numeric field read as a number is modelled as `0`
  where JS would produce `NaN`; no theorem below depends on that branch, and
  every theorem that reads a price carries the hypothesis that the field is a
  genuine number.
* The only arrays stored inside records in this API are order line-item lists,
  modelled by the dedicated constructor `JVal.vLines`.
* Request bodies reaching a handler have passed the express-validator gate:
  the `validate` middleware (`src/middleware/validation.js`, shipped as the
  second segment of `src/unnamed/part_000`) short-circuits with a 400
  "Validation failed" envelope when any rule declared on the route fails.
  Handlers are modelled on post-validation requests; where a claim depends on
  the gate's reject path, the gate is embedded from that middleware together
  with the route's declared rules.
-/

set_option maxHeartbeats 1000000

namespace RestApi

/-- A JS value as it occurs in this API: strings, numbers, booleans, and
arrays of order line items (the only arrays stored inside records). -/
inductive JVal where
  | vStr (s : String)
  | vNum (q : ℚ)
  | vBool (b : Bool)
  | vLines (ls : List (String × ℚ × ℚ))
  deriving DecidableEq

/-- A JS object: an association list from field names to values.  JS objects
have unique keys; all operations below read the first binding of a key, so no
well-formedness assumption is needed. -/
abbrev JObj := List (String × JVal)

/-- Field access `o.k`: the first binding of key `k`, `none` for JS
`undefined`. -/
def jGet (o : JObj) (k : String) : Option JVal :=
  (o.find? (fun kv => kv.1 == k)).map (fun kv => kv.2)

/-- JS truthiness of a value. -/
def JVal.truthy : JVal → Bool
  | .vStr s => !(s == "")
  | .vNum q => !(q == 0)
  | .vBool b => b
  | .vLines _ => true

/-- JS truthiness of a possibly-undefined value. -/
def jTruthy : Option JVal → Bool
  | none => false
  | some v => v.truthy

/-- Read a field as a string; JS would throw or coerce on a non-string, which
never happens on the schema-conformant records the theorems quantify over. -/
def jStrD (v : Option JVal) : String :=
  match v with
  | some (.vStr s) => s
  | _ => ""

/-- Read a field as a number; `0` stands in for the JS `NaN` of a missing or
non-numeric field (see the file comment). -/
def jNumD (v : Option JVal) : ℚ :=
  match v with
  | some (.vNum q) => q
  | _ => 0

/-- Whether a possibly-undefined value is a genuine number. -/
def isNum (v : Option JVal) : Bool :=
  match v with
  | some (.vNum _) => true
  | _ => false

/-- The object spread `{...a, ...b}`: keys of `a` keep their position, values
overridden by `b` where `b` also binds the key; keys only in `b` are appended. -/
def spreadMerge (a b : JObj) : JObj :=
  (a.map (fun kv =>
    match b.find? (fun kv2 => kv2.1 == kv.1) with
    | some kv2 => (kv.1, kv2.2)
    | none => kv))
  ++ b.filter (fun kv2 => !(a.any (fun kv => kv.1 == kv2.1)))

/-- `Array.prototype.findIndex`: index of the first element satisfying `p`. -/
def jsFindIndex (p : α → Bool) : List α → Option ℕ
  | [] => none
  | x :: xs => if p x then some 0 else (jsFindIndex p xs).map (· + 1)

/-- `Array.prototype.slice(s, e)`. -/
def jsSlice (l : List α) (s e : ℕ) : List α :=
  (l.drop s).take (e - s)

/-- `Math.ceil(a / b)` on naturals (`b ≥ 1` in every use site). -/
def jsCeilDiv (a b : ℕ) : ℕ :=
  (a + b - 1) / b

/-- The predicate `record.id === id` used by every store scan. -/
def recordIdIs (id : String) (r : JObj) : Bool :=
  jGet r "id" == some (JVal.vStr id)

/-- `getAll()`: a copy of the collection (`[...xs]`). -/
def storeGetAll (s : List JObj) : List JObj := s

/-- `getById(id)`: `xs.find((x) => x.id === id)`. -/
def storeGetById (s : List JObj) (id : String) : Option JObj :=
  s.find? (recordIdIs id)

/-- The record built by `create`:
`{ id: generateId(), ...data, createdAt: now, updatedAt: now }`. -/
def createRecord (genId now : String) (data : JObj) : JObj :=
  spreadMerge (spreadMerge [("id", JVal.vStr genId)] data)
    [("createdAt", JVal.vStr now), ("updatedAt", JVal.vStr now)]

/-- `create(data)`: append the new record, return it. -/
def storeCreate (s : List JObj) (genId now : String) (data : JObj) :
    JObj × List JObj :=
  let newRec := createRecord genId now data
  (newRec, s ++ [newRec])

/-- The record built by `update`: `{ ...old, ...data, updatedAt: now }`. -/
def mergedRecord (old data : JObj) (now : String) : JObj :=
  spreadMerge (spreadMerge old data) [("updatedAt", JVal.vStr now)]

/-- `update(id, data)`: `findIndex`, `null` when absent, otherwise replace in
place and return the merged record. -/
def storeUpdate (s : List JObj) (id : String) (data : JObj) (now : String) :
    Option JObj × List JObj :=
  match jsFindIndex (recordIdIs id) s with
  | none => (none, s)
  | some i =>
    let merged := mergedRecord (s.getD i []) data now
    (some merged, s.set i merged)

/-- `delete(id)`: `findIndex` then `splice(index, 1)`; returns the found flag. -/
def storeDelete (s : List JObj) (id : String) : Bool × List JObj :=
  match jsFindIndex (recordIdIs id) s with
  | none => (false, s)
  | some i => (true, s.eraseIdx i)

/-! ### Basic lemmas about the object model -/

theorem jGet_nil (k : String) : jGet ([] : JObj) k = none := rfl

theorem jGet_cons (kv : String × JVal) (o : JObj) (k : String) :
    jGet (kv :: o) k = if kv.1 == k then some kv.2 else jGet o k := by
  simp only [jGet, List.find?]
  cases h : kv.1 == k <;> simp [h]

theorem jGet_isSome_any (a : JObj) (k : String) :
    (jGet a k).isSome = a.any (fun kv => kv.1 == k) := by
  induction a with
  | nil => simp [jGet]
  | cons kv a ih =>
    rw [jGet_cons]
    cases h : kv.1 == k <;> simp [h, ih]

theorem jGet_mapOver (a b : JObj) (k : String) :
    jGet (a.map (fun kv =>
      match b.find? (fun kv2 => kv2.1 == kv.1) with
      | some kv2 => (kv.1, kv2.2)
      | none => kv)) k
      = (jGet a k).map (fun v =>
          match jGet b k with
          | some w => w
          | none => v) := by
  induction a with
  | nil => simp [jGet]
  | cons kv a ih =>
    simp only [List.map_cons]
    cases hb : b.find? (fun kv2 => kv2.1 == kv.1) with
    | none =>
      rw [jGet_cons, jGet_cons]
      cases h : kv.1 == k with
      | false => rw [if_neg (by simp), if_neg (by simp)]; exact ih
      | true =>
        have hk : kv.1 = k := by simpa using h
        have hbk : jGet b k = none := by simp [jGet, ← hk, hb]
        simp [hbk]
    | some kv2 =>
      rw [jGet_cons, jGet_cons]
      cases h : kv.1 == k with
      | false => rw [if_neg (by simp), if_neg (by simp)]; exact ih
      | true =>
        have hk : kv.1 = k := by simpa using h
        have hbk : jGet b k = some kv2.2 := by simp [jGet, ← hk, hb]
        simp [hbk]

theorem jGet_filterNew (a b : JObj) (k : String) :
    jGet (b.filter (fun kv2 => !(a.any (fun kv => kv.1 == kv2.1)))) k
      = if a.any (fun kv => kv.1 == k) then none else jGet b k := by
  induction b with
  | nil => simp [jGet]
  | cons kv2 b ih =>
    by_cases hk : kv2.1 = k
    · rw [List.filter_cons]
      cases ha : a.any (fun kv => kv.1 == k) with
      | true =>
        have ha2 : a.any (fun kv => kv.1 == kv2.1) = true := by rw [hk]; exact ha
        rw [if_neg (by simp [ha2])]
        simp [ih, ha]
      | false =>
        have ha2 : a.any (fun kv => kv.1 == kv2.1) = false := by rw [hk]; exact ha
        simp [ha2, ha, jGet_cons, hk]
    · have hk2 : (kv2.1 == k) = false := by simpa using hk
      rw [List.filter_cons]
      cases hkeep : a.any (fun kv => kv.1 == kv2.1) with
      | true =>
        rw [if_neg (by simp [hkeep]), ih]
        simp [jGet_cons, hk2]
      | false =>
        rw [if_pos (by simp [hkeep]), jGet_cons, if_neg (by simp [hk2]), ih]
        simp [jGet_cons, hk2]

theorem jGet_append (a b : JObj) (k : String) :
    jGet (a ++ b) k = (jGet a k).or (jGet b k) := by
  simp only [jGet, List.find?_append]
  cases a.find? (fun kv => kv.1 == k) <;> simp

/-- Field access through an object spread: the right operand wins. -/
theorem jGet_spreadMerge (a b : JObj) (k : String) :
    jGet (spreadMerge a b) k = (jGet b k).or (jGet a k) := by
  rw [spreadMerge, jGet_append, jGet_mapOver, jGet_filterNew]
  cases ha : a.any (fun kv => kv.1 == k) with
  | true =>
    have : (jGet a k).isSome := by rw [jGet_isSome_any, ha]
    obtain ⟨v, hv⟩ := Option.isSome_iff_exists.mp this
    rw [if_pos rfl, hv]
    cases hb : jGet b k <;> simp
  | false =>
    have : jGet a k = none := by
      have h := jGet_isSome_any a k
      rw [ha] at h
      exact Option.not_isSome_iff_eq_none.mp (by simp [h])
    rw [if_neg (by simp), this]
    cases hb : jGet b k <;> simp

/-- Field access on a freshly created record: the trailing literal timestamps
win over `data`, `data` wins over the generated id. -/
theorem jGet_createRecord (genId now : String) (data : JObj) (k : String) :
    jGet (createRecord genId now data) k =
      if k = "createdAt" ∨ k = "updatedAt" then some (JVal.vStr now)
      else
        match jGet data k with
        | some v => some v
        | none => if k = "id" then some (JVal.vStr genId) else none := by
  rw [createRecord, jGet_spreadMerge, jGet_spreadMerge]
  by_cases h1 : k = "createdAt"
  · subst h1
    simp [jGet_cons]
  by_cases h2 : k = "updatedAt"
  · subst h2
    simp [jGet_cons]
  have hts :
      jGet [("createdAt", JVal.vStr now), ("updatedAt", JVal.vStr now)] k
        = none := by
    rw [jGet_cons, jGet_cons]
    rw [if_neg (by simp [Ne.symm h1]), if_neg (by simp [Ne.symm h2])]
    rfl
  rw [hts, if_neg (by simp [h1, h2])]
  by_cases h3 : k = "id"
  · subst h3
    cases hd : jGet data "id" <;> simp [hd, jGet_cons, jGet_nil]
  · cases hd : jGet data k <;>
      simp [hd, jGet_cons, jGet_nil, h3, Ne.symm h3]

/-- Field access on an updated record: the literal `updatedAt` stamp wins, then
the patch object, then the old record. -/
theorem jGet_mergedRecord (old data : JObj) (now : String) (k : String) :
    jGet (mergedRecord old data now) k =
      if k = "updatedAt" then some (JVal.vStr now)
      else (jGet data k).or (jGet old k) := by
  rw [mergedRecord, jGet_spreadMerge, jGet_spreadMerge]
  by_cases h : k = "updatedAt"
  · subst h
    simp [jGet_cons]
  · have hts : jGet [("updatedAt", JVal.vStr now)] k = none := by
      rw [jGet_cons, if_neg (by simp [Ne.symm h])]
      rfl
    rw [hts, if_neg h]
    simp

/-! ### Lemmas about `findIndex` -/

theorem jsFindIndex_eq_none {α : Type} (p : α → Bool) (l : List α) :
    jsFindIndex p l = none ↔ ∀ x ∈ l, p x = false := by
  induction l with
  | nil => simp [jsFindIndex]
  | cons x xs ih =>
    rw [jsFindIndex]
    cases h : p x with
    | true => simp [h]
    | false =>
      rw [if_neg (by simp)]
      have hmap : ((jsFindIndex p xs).map (· + 1) = none)
          ↔ jsFindIndex p xs = none := by
        cases jsFindIndex p xs <;> simp
      rw [hmap, ih]
      constructor
      · intro hall y hy
        rcases List.mem_cons.mp hy with rfl | hy
        · exact h
        · exact hall y hy
      · intro hall y hy
        exact hall y (List.mem_cons_of_mem _ hy)

theorem jsFindIndex_eq_none_iff_find? {α : Type} (p : α → Bool) (l : List α) :
    jsFindIndex p l = none ↔ l.find? p = none := by
  rw [jsFindIndex_eq_none, List.find?_eq_none]
  constructor
  · intro h x hx
    simp [h x hx]
  · intro h x hx
    have := h x hx
    simpa using this

/-- A successful `findIndex`: the index is in range, the element there
satisfies the predicate, no earlier element does, and `find?` returns exactly
that element. -/
theorem jsFindIndex_some {α : Type} (p : α → Bool) (l : List α) (i : ℕ)
    (h : jsFindIndex p l = some i) :
    ∃ hi : i < l.length,
      p (l.get ⟨i, hi⟩) = true ∧
      l.find? p = some (l.get ⟨i, hi⟩) ∧
      ∀ j (hj : j < l.length), j < i → p (l.get ⟨j, hj⟩) = false := by
  induction l generalizing i with
  | nil => simp [jsFindIndex] at h
  | cons x xs ih =>
    rw [jsFindIndex] at h
    cases hp : p x with
    | true =>
      rw [if_pos (by simp [hp])] at h
      obtain rfl : (0 : ℕ) = i := by simpa using h
      refine ⟨by simp, by simpa using hp, ?_, ?_⟩
      · simp [List.find?_cons, hp]
      · intro j hj hji
        omega
    | false =>
      rw [if_neg (by simp [hp])] at h
      obtain ⟨i', hi', rfl⟩ := Option.map_eq_some.mp h
      obtain ⟨hlt, hpe, hfind, hmin⟩ := ih i' hi'
      refine ⟨by simpa using Nat.succ_lt_succ hlt, by simpa using hpe, ?_, ?_⟩
      · simpa [List.find?_cons, hp] using hfind
      · intro j hj hji
        match j with
        | 0 => simpa using hp
        | j' + 1 =>
          have : j' < i' := by omega
          simpa using hmin j' (by simpa using Nat.lt_of_succ_lt_succ hj) this

/-! ### Response types and route handlers -/

/-- An HTTP handler outcome: status code, message, optional record payload. -/
structure HRes where
  status : ℕ
  message : String
  data : Option JObj
  deriving DecidableEq

/-- An error envelope (`{error: true, message, statusCode, ...}`). -/
def resErr (c : ℕ) (m : String) : HRes :=
  ⟨c, m, none⟩

/-- JS truthiness of a possibly-undefined query-parameter string. -/
def strTruthy : Option String → Bool
  | none => false
  | some s => !(s == "")

/-- `String.prototype.includes`. -/
def strContains (hay nee : String) : Bool :=
  (List.range (hay.toList.length + 1)).any
    (fun i => ((hay.toList.drop i).take nee.toList.length) == nee.toList)

/-- `v >= m` on a JS field read as a number (`false` when the field is
missing or not a number, as for JS `NaN` comparisons). -/
def jNumGe (v : Option JVal) (m : ℚ) : Bool :=
  match v with
  | some (.vNum x) => decide (m ≤ x)
  | _ => false

/-- `v <= m` on a JS field read as a number. -/
def jNumLe (v : Option JVal) (m : ℚ) : Bool :=
  match v with
  | some (.vNum x) => decide (x ≤ m)
  | _ => false

/-- POST /users (`src/routes/users.js`): reject 409 when some current user's
email is strictly equal to the body email, otherwise delegate to store
`create` with the raw body. -/
def usersCreate (users : List JObj) (genId now : String) (body : JObj) :
    HRes × List JObj :=
  if users.any (fun u => jGet u "email" == jGet body "email") then
    (resErr 409 "User with this email already exists", users)
  else
    let res := storeCreate users genId now body
    (⟨201, "User created successfully", some res.1⟩, res.2)

/-- GET /users/:id (`src/routes/users.js`). -/
def usersGetById (users : List JObj) (id : String) : HRes :=
  match storeGetById users id with
  | none => resErr 404 "User not found"
  | some u => ⟨200, "", some u⟩

/-- The duplicate-email scan of the users PUT and PATCH handlers:
`find((user) => user.email === req.body.email && user.id !== req.params.id)`. -/
def emailClash (users : List JObj) (p : String) (body : JObj) : Bool :=
  users.any (fun u =>
    jGet u "email" == jGet body "email"
      && !(jGet u "id" == some (JVal.vStr p)))

/-- PUT /users/:id (`src/routes/users.js`): 404 when absent; when the body
email differs from the current one, 409 on a clash with any other user's
email; otherwise store `update` with the raw body. -/
def usersPut (users : List JObj) (p now : String) (body : JObj) :
    HRes × List JObj :=
  match storeGetById users p with
  | none => (resErr 404 "User not found", users)
  | some existing =>
    if !(jGet body "email" == jGet existing "email")
        && emailClash users p body then
      (resErr 409 "User with this email already exists", users)
    else
      let res := storeUpdate users p body now
      (⟨200, "User updated successfully", res.1⟩, res.2)

/-- PATCH /users/:id (`src/routes/users.js`): like PUT but the email check
only runs when the body email is truthy (`req.body.email && ...`); the raw
body is passed to store `update`. -/
def usersPatch (users : List JObj) (p now : String) (body : JObj) :
    HRes × List JObj :=
  match storeGetById users p with
  | none => (resErr 404 "User not found", users)
  | some existing =>
    if jTruthy (jGet body "email")
        && !(jGet body "email" == jGet existing "email")
        && emailClash users p body then
      (resErr 409 "User with this email already exists", users)
    else
      let res := storeUpdate users p body now
      (⟨200, "User updated successfully", res.1⟩, res.2)

/-- DELETE /users/:id (`src/routes/users.js`). -/
def usersDelete (users : List JObj) (id : String) : HRes × List JObj :=
  let res := storeDelete users id
  if res.1 then (⟨200, "User deleted successfully", none⟩, res.2)
  else (resErr 404 "User not found", res.2)

/-! ### List endpoints -/

/-- Pagination metadata `{page, limit, total, totalPages}`. -/
structure Pagination where
  page : ℕ
  limit : ℕ
  total : ℕ
  totalPages : ℕ
  deriving DecidableEq

/-- A list-endpoint response. -/
structure ListRes where
  status : ℕ
  data : List JObj
  pagination : Pagination
  deriving DecidableEq

/-- The pagination block shared verbatim by the three list handlers:
defaults `page = 1`, `limit = 10` (query values are validated to
`page ≥ 1`, `1 ≤ limit ≤ 100` by the gate), `slice` of the filtered
collection, `total` and `Math.ceil`-based `totalPages` from the filtered
length. -/
def listResponse (filtered : List JObj) (qpage qlimit : Option ℕ) : ListRes :=
  let page := qpage.getD 1
  let limit := qlimit.getD 10
  let startIndex := (page - 1) * limit
  let endIndex := page * limit
  { status := 200
    data := jsSlice filtered startIndex endIndex
    pagination :=
      { page := page, limit := limit, total := filtered.length
        totalPages := jsCeilDiv filtered.length limit } }

/-- Query parameters of GET /users, already past the validation gate. -/
structure UsersQuery where
  name : Option String
  email : Option String
  page : Option ℕ
  limit : Option ℕ

/-- The filter block of GET /users: case-insensitive name substring match,
exact email match. -/
def usersFilter (users : List JObj) (qname qemail : Option String) :
    List JObj :=
  let u1 :=
    if strTruthy qname then
      users.filter (fun u =>
        strContains (jStrD (jGet u "name")).toLower (qname.getD "").toLower)
    else users
  if strTruthy qemail then
    u1.filter (fun u => jGet u "email" == some (JVal.vStr (qemail.getD "")))
  else u1

/-- GET /users (`src/routes/users.js`). -/
def usersList (users : List JObj) (q : UsersQuery) : ListRes :=
  listResponse (usersFilter users q.name q.email) q.page q.limit

/-- Query parameters of GET /products, already past the validation gate;
`minPrice`/`maxPrice` carry the `parseFloat` of the validated (hence
truthy) query strings. -/
structure ProductsQuery where
  name : Option String
  category : Option String
  minPrice : Option ℚ
  maxPrice : Option ℚ
  inStock : Option String
  page : Option ℕ
  limit : Option ℕ

/-- The filter block of GET /products (`src/routes/products.js`). -/
def productsFilter (products : List JObj) (q : ProductsQuery) : List JObj :=
  let p1 :=
    if strTruthy q.name then
      products.filter (fun r =>
        strContains (jStrD (jGet r "name")).toLower (q.name.getD "").toLower)
    else products
  let p2 :=
    if strTruthy q.category then
      p1.filter (fun r => jGet r "category" == some (JVal.vStr (q.category.getD "")))
    else p1
  let p3 :=
    match q.minPrice with
    | some m => p2.filter (fun r => jNumGe (jGet r "price") m)
    | none => p2
  let p4 :=
    match q.maxPrice with
    | some m => p3.filter (fun r => jNumLe (jGet r "price") m)
    | none => p3
  match q.inStock with
  | some s => p4.filter (fun r => jGet r "inStock" == some (JVal.vBool (s == "true")))
  | none => p4

/-- GET /products (`src/routes/products.js`). -/
def productsList (products : List JObj) (q : ProductsQuery) : ListRes :=
  listResponse (productsFilter products q) q.page q.limit

/-- Query parameters of GET /orders, already past the validation gate. -/
structure OrdersQuery where
  userId : Option String
  status : Option String
  minAmount : Option ℚ
  maxAmount : Option ℚ
  page : Option ℕ
  limit : Option ℕ

/-- The filter block of GET /orders (`src/unnamed/part_002`). -/
def ordersFilter (orders : List JObj) (q : OrdersQuery) : List JObj :=
  let o1 :=
    if strTruthy q.userId then
      orders.filter (fun r => jGet r "userId" == some (JVal.vStr (q.userId.getD "")))
    else orders
  let o2 :=
    if strTruthy q.status then
      o1.filter (fun r => jGet r "status" == some (JVal.vStr (q.status.getD "")))
    else o1
  let o3 :=
    match q.minAmount with
    | some m => o2.filter (fun r => jNumGe (jGet r "totalAmount") m)
    | none => o2
  match q.maxAmount with
  | some m => o3.filter (fun r => jNumLe (jGet r "totalAmount") m)
  | none => o3

/-- GET /orders (`src/unnamed/part_002`). -/
def ordersList (orders : List JObj) (q : OrdersQuery) : ListRes :=
  listResponse (ordersFilter orders q) q.page q.limit

/-! ### Orders handlers -/

/-- One entry of a validated POST /orders body: `{productId, quantity}`
(`quantity` validated to a positive integer; a `price` sent by the caller is
never read by the create handler). -/
structure OrderItem where
  productId : String
  quantity : ℕ
  deriving DecidableEq

/-- The per-line loop of POST /orders (`src/unnamed/part_002`): look up each
product, 404 naming the id when missing, 400 when its `inStock` is falsy,
otherwise push the snapshot `{productId, quantity, price: product.price}` and
add `product.price * quantity` to the running total. -/
def processOrderItems (productsS : List JObj) :
    List OrderItem → List (String × ℚ × ℚ) → ℚ →
      HRes ⊕ (List (String × ℚ × ℚ) × ℚ)
  | [], acc, total => Sum.inr (acc, total)
  | it :: rest, acc, total =>
    match storeGetById productsS it.productId with
    | none =>
      Sum.inl (resErr 404 ("Product with ID " ++ it.productId ++ " not found"))
    | some prod =>
      if !(jTruthy (jGet prod "inStock")) then
        Sum.inl (resErr 400
          ("Product " ++ jStrD (jGet prod "name") ++ " is out of stock"))
      else
        processOrderItems productsS rest
          (acc ++ [(it.productId, (it.quantity : ℚ), jNumD (jGet prod "price"))])
          (total + jNumD (jGet prod "price") * (it.quantity : ℚ))

/-- POST /orders (`src/unnamed/part_002`): validate the user, run the
per-line loop, then persist
`{userId, products: snapshots, totalAmount, status: "pending"}`. -/
def ordersCreate (ordersS usersS productsS : List JObj) (genId now : String)
    (userId : String) (items : List OrderItem) : HRes × List JObj :=
  match storeGetById usersS userId with
  | none => (resErr 404 "User not found", ordersS)
  | some _ =>
    match processOrderItems productsS items [] 0 with
    | Sum.inl e => (e, ordersS)
    | Sum.inr vp =>
      let orderData : JObj :=
        [("userId", JVal.vStr userId), ("products", JVal.vLines vp.1),
         ("totalAmount", JVal.vNum vp.2), ("status", JVal.vStr "pending")]
      let res := storeCreate ordersS genId now orderData
      (⟨201, "Order created successfully", some res.1⟩, res.2)

/-- A validated PUT /orders/:id body: userId, full line items (with
caller-supplied prices), caller-supplied totalAmount, optional status. -/
structure OrderPutBody where
  userId : String
  products : List (String × ℚ × ℚ)
  totalAmount : ℚ
  status : Option String
  deriving DecidableEq

/-- The validated PUT body as the JS object handed to store `update`. -/
def putBodyObj (b : OrderPutBody) : JObj :=
  [("userId", JVal.vStr b.userId), ("products", JVal.vLines b.products),
   ("totalAmount", JVal.vNum b.totalAmount)]
  ++ (match b.status with
      | some s => [("status", JVal.vStr s)]
      | none => [])

/-- PUT /orders/:id (`src/unnamed/part_002`): requires the order, the user
and every listed product to exist; no stock check; then store `update` with
the body as supplied. -/
def ordersPut (ordersS usersS productsS : List JObj) (p now : String)
    (b : OrderPutBody) : HRes × List JObj :=
  match storeGetById ordersS p with
  | none => (resErr 404 "Order not found", ordersS)
  | some _ =>
    match storeGetById usersS b.userId with
    | none => (resErr 404 "User not found", ordersS)
    | some _ =>
      match b.products.find? (fun it => !(storeGetById productsS it.1).isSome) with
      | some it =>
        (resErr 404 ("Product with ID " ++ it.1 ++ " not found"), ordersS)
      | none =>
        let res := storeUpdate ordersS p (putBodyObj b) now
        (⟨200, "Order updated successfully", res.1⟩, res.2)

/-- The order status enumeration. -/
def statusEnum : List String :=
  ["pending", "processing", "shipped", "delivered", "cancelled"]

/-- The declared rule of the PATCH /orders/:id route,
`body("status").optional().isIn(["pending", ...])` in `src/unnamed/part_002`:
it passes when the body carries no status (`optional()` skips `undefined`),
and otherwise requires a status string belonging to the enumeration. -/
def ordersPatchStatusOk (body : JObj) : Bool :=
  match jGet body "status" with
  | none => true
  | some (.vStr s) => statusEnum.contains s
  | some _ => false

/-- PATCH /orders/:id (`src/unnamed/part_002`) composed with the shipped
validation middleware (the second segment of `src/unnamed/part_000`): when
the declared status rule fails, the middleware short-circuits with a 400
envelope whose message is "Validation failed" — the per-field detail
`{field: "status", message: "Invalid status", value}` sits in the envelope's
`errors` array, below the granularity of `HRes` — and the handler never
runs.  Otherwise: 404 on a missing order, else store `update` with the raw
body. -/
def ordersPatch (ordersS : List JObj) (p now : String) (body : JObj) :
    HRes × List JObj :=
  if !(ordersPatchStatusOk body) then
    (resErr 400 "Validation failed", ordersS)
  else
    match storeGetById ordersS p with
    | none => (resErr 404 "Order not found", ordersS)
    | some _ =>
      let res := storeUpdate ordersS p body now
      (⟨200, "Order updated successfully", res.1⟩, res.2)

/-! ### Spec-side helper predicates used in theorem statements -/

/-- The price currently stored for a product id. -/
def storedPrice (productsS : List JObj) (pid : String) : ℚ :=
  jNumD (jGet ((storeGetById productsS pid).getD []) "price")

/-- A line item references an existing product whose `inStock` is truthy. -/
def itemAvailable (productsS : List JObj) (it : OrderItem) : Bool :=
  match storeGetById productsS it.productId with
  | some prod => jTruthy (jGet prod "inStock")
  | none => false

/-- The emails of a user collection, in store order. -/
def emailsOf (users : List JObj) : List (Option JVal) :=
  users.map (fun u => jGet u "email")

/-- The ids of a user collection, in store order. -/
def idsOf (users : List JObj) : List (Option JVal) :=
  users.map (fun u => jGet u "id")

/-- A body whose email field, when present, is truthy — guaranteed by the
validation gate, which only lets nonempty well-formed email strings through. -/
def validEmailField (body : JObj) : Bool :=
  match jGet body "email" with
  | none => true
  | some v => v.truthy

/-! ### Store-level helper lemmas -/

theorem storeUpdate_found (store : List JObj) (id now : String) (data : JObj)
    (old : JObj) (h : storeGetById store id = some old) :
    ∃ i, ∃ hi : i < store.length,
      jsFindIndex (recordIdIs id) store = some i
      ∧ store.get ⟨i, hi⟩ = old
      ∧ recordIdIs id old = true
      ∧ (∀ j (hj : j < store.length), j < i →
          recordIdIs id (store.get ⟨j, hj⟩) = false)
      ∧ storeUpdate store id data now
          = (some (mergedRecord old data now),
             store.set i (mergedRecord old data now)) := by
  have hne : jsFindIndex (recordIdIs id) store ≠ none := by
    intro hn
    have : storeGetById store id = none :=
      (jsFindIndex_eq_none_iff_find? _ _).mp hn
    rw [this] at h
    cases h
  obtain ⟨i, hfi⟩ := Option.ne_none_iff_exists'.mp hne
  obtain ⟨hi, hpe, hfind, hmin⟩ := jsFindIndex_some _ _ _ hfi
  have hold : store.get ⟨i, hi⟩ = old := by
    rw [storeGetById] at h
    rw [h] at hfind
    exact (Option.some_inj.mp hfind).symm
  refine ⟨i, hi, hfi, hold, by rw [← hold]; exact hpe, hmin, ?_⟩
  have hgd : store[i]?.getD [] = old := by
    rw [List.getElem?_eq_getElem hi]
    simpa using hold
  rw [storeUpdate, hfi]
  simp [hgd]

theorem storeGetById_none_iff (store : List JObj) (id : String) :
    storeGetById store id = none ↔ ∀ r ∈ store, recordIdIs id r = false := by
  rw [storeGetById, List.find?_eq_none]
  constructor
  · intro h r hr
    simpa using h r hr
  · intro h r hr
    simp [h r hr]

/-- C6: POST then GET by the returned id yields a record whose fields equal
the submitted fields plus a generated id, with `createdAt = updatedAt` set to
the creation instant.  Hypotheses: the generated id is fresh (uuid
uniqueness) and the valid create body carries none of the system-managed
fields. -/
theorem claim_C6_create_round_trip (store : List JObj) (genId now : String)
    (body : JObj)
    (hfresh : store.all (fun r => !(recordIdIs genId r)) = true)
    (hid : jGet body "id" = none)
    (hca : jGet body "createdAt" = none)
    (hua : jGet body "updatedAt" = none) :
    storeGetById (storeCreate store genId now body).2 genId
        = some (storeCreate store genId now body).1
      ∧ jGet (storeCreate store genId now body).1 "id"
          = some (JVal.vStr genId)
      ∧ jGet (storeCreate store genId now body).1 "createdAt"
          = some (JVal.vStr now)
      ∧ jGet (storeCreate store genId now body).1 "updatedAt"
          = some (JVal.vStr now)
      ∧ ∀ k v, jGet body k = some v →
          jGet (storeCreate store genId now body).1 k = some v := by
  have hrec : ∀ k, jGet (createRecord genId now body) k =
      if k = "createdAt" ∨ k = "updatedAt" then some (JVal.vStr now)
      else
        match jGet body k with
        | some v => some v
        | none => if k = "id" then some (JVal.vStr genId) else none :=
    fun k => jGet_createRecord genId now body k
  have hnewid : jGet (createRecord genId now body) "id"
      = some (JVal.vStr genId) := by
    rw [hrec "id", if_neg (by simp), hid]
    simp
  refine ⟨?_, ?_, ?_, ?_, ?_⟩
  · rw [storeCreate]
    simp only [storeGetById, List.find?_append]
    have h1 : store.find? (recordIdIs genId) = none := by
      rw [List.find?_eq_none]
      intro r hr
      have := List.all_eq_true.mp hfresh r hr
      simp only [Bool.not_eq_true'] at this
      simp [this]
    rw [h1]
    simp [List.find?, recordIdIs, hnewid]
  · exact hnewid
  · rw [storeCreate]
    simp only
    rw [hrec "createdAt", if_pos (by simp)]
  · rw [storeCreate]
    simp only
    rw [hrec "updatedAt", if_pos (by simp)]
  · intro k v hkv
    have hk1 : k ≠ "createdAt" := fun hk => by rw [hk, hca] at hkv; cases hkv
    have hk2 : k ≠ "updatedAt" := fun hk => by rw [hk, hua] at hkv; cases hkv
    rw [storeCreate]
    simp only
    rw [hrec k, if_neg (by simp [hk1, hk2]), hkv]

/-- Closed instance of C6 discharging its hypotheses: creating
`{name: "John Doe", email: "j@x.com", age: 30}` over the empty store and
reading the new id back returns the created record, whose name equals the
submitted name and whose timestamps both equal the creation instant. -/
theorem claim_C6_create_round_trip_witness :
    ([] : List JObj).all (fun r => !(recordIdIs "id-1" r)) = true
      ∧ jGet [("name", JVal.vStr "John Doe"), ("email", JVal.vStr "j@x.com"),
          ("age", JVal.vNum 30)] "id" = none
      ∧ storeGetById
          (storeCreate [] "id-1" "t0"
            [("name", JVal.vStr "John Doe"), ("email", JVal.vStr "j@x.com"),
             ("age", JVal.vNum 30)]).2 "id-1"
          = some (storeCreate [] "id-1" "t0"
              [("name", JVal.vStr "John Doe"), ("email", JVal.vStr "j@x.com"),
               ("age", JVal.vNum 30)]).1
      ∧ jGet (storeCreate [] "id-1" "t0"
            [("name", JVal.vStr "John Doe"), ("email", JVal.vStr "j@x.com"),
             ("age", JVal.vNum 30)]).1 "name" = some (JVal.vStr "John Doe") :=
  ⟨by decide, by decide,
    (claim_C6_create_round_trip [] "id-1" "t0" _
      (by decide) (by decide) (by decide) (by decide)).1,
    (claim_C6_create_round_trip [] "id-1" "t0" _
      (by decide) (by decide) (by decide) (by decide)).2.2.2.2
      "name" (JVal.vStr "John Doe") (by decide)⟩

/-- C7: store `update` is a shallow merge: an unknown id yields `null` with
the collection untouched; a known id replaces the first matching record in
place by the merge in which every field present in the partial object wins,
absent fields keep their previous value, `updatedAt` is restamped, and the
merged record is returned. -/
theorem claim_C7_update_shallow_merge (store : List JObj) (id now : String)
    (data : JObj) :
    ((∀ r ∈ store, recordIdIs id r = false) →
        storeUpdate store id data now = (none, store))
      ∧ ∀ old, storeGetById store id = some old →
          ∃ i m,
            storeUpdate store id data now = (some m, store.set i m)
            ∧ jGet m "updatedAt" = some (JVal.vStr now)
            ∧ (∀ k, k ≠ "updatedAt" →
                jGet m k = (jGet data k).or (jGet old k)) := by
  constructor
  · intro h
    have : jsFindIndex (recordIdIs id) store = none := by
      rw [jsFindIndex_eq_none]
      exact h
    rw [storeUpdate, this]
  · intro old h
    obtain ⟨i, hi, _, _, _, _, heq⟩ :=
      storeUpdate_found store id now data old h
    refine ⟨i, mergedRecord old data now, heq, ?_, ?_⟩
    · rw [jGet_mergedRecord, if_pos rfl]
    · intro k hk
      rw [jGet_mergedRecord, if_neg hk]

/-- Closed instance of C7: updating the single stored record with a partial
object that changes `age` keeps `name`, refreshes `updatedAt`, and updating a
missing id returns `null` and leaves the store unchanged. -/
theorem claim_C7_update_shallow_merge_witness :
    ((∀ r ∈ [[("id", JVal.vStr "u1"), ("name", JVal.vStr "Jo"),
        ("age", JVal.vNum 30)]], recordIdIs "zzz" r = false) →
      storeUpdate [[("id", JVal.vStr "u1"), ("name", JVal.vStr "Jo"),
        ("age", JVal.vNum 30)]] "zzz" [("age", JVal.vNum 44)] "t1"
        = (none, [[("id", JVal.vStr "u1"), ("name", JVal.vStr "Jo"),
            ("age", JVal.vNum 30)]]))
    ∧ ∃ i m,
        storeUpdate [[("id", JVal.vStr "u1"), ("name", JVal.vStr "Jo"),
          ("age", JVal.vNum 30)]] "u1" [("age", JVal.vNum 44)] "t1"
          = (some m, [[("id", JVal.vStr "u1"), ("name", JVal.vStr "Jo"),
              ("age", JVal.vNum 30)]].set i m)
        ∧ jGet m "updatedAt" = some (JVal.vStr "t1")
        ∧ (∀ k, k ≠ "updatedAt" →
            jGet m k = (jGet [("age", JVal.vNum 44)] k).or
              (jGet [("id", JVal.vStr "u1"), ("name", JVal.vStr "Jo"),
                ("age", JVal.vNum 30)] k)) :=
  ⟨(claim_C7_update_shallow_merge _ "zzz" "t1" _).1,
   (claim_C7_update_shallow_merge _ "u1" "t1" _).2 _ (by decide)⟩

/-! ### The order-creation loop -/

theorem processOrderItems_ok (productsS : List JObj) (items : List OrderItem)
    (hall : items.all (itemAvailable productsS) = true) :
    ∀ acc total,
      processOrderItems productsS items acc total
        = Sum.inr
            (acc ++ items.map (fun it =>
                (it.productId, (it.quantity : ℚ),
                  storedPrice productsS it.productId)),
             total + (items.map (fun it =>
                storedPrice productsS it.productId * (it.quantity : ℚ))).sum) := by
  induction items with
  | nil =>
    intro acc total
    simp [processOrderItems]
  | cons it rest ih =>
    intro acc total
    have h1 : itemAvailable productsS it = true := by
      have := List.all_eq_true.mp hall it (by simp)
      simpa using this
    have hrest : rest.all (itemAvailable productsS) = true := by
      rw [List.all_eq_true]
      intro x hx
      exact List.all_eq_true.mp hall x (by simp [hx])
    cases hp : storeGetById productsS it.productId with
    | none => rw [itemAvailable, hp] at h1; cases h1
    | some prod =>
      have hstock : jTruthy (jGet prod "inStock") = true := by
        rw [itemAvailable, hp] at h1
        exact h1
      have hprice : jNumD (jGet prod "price")
          = storedPrice productsS it.productId := by
        rw [storedPrice, hp]
        rfl
      simp only [processOrderItems, hp, hstock, Bool.not_true,
        Bool.false_eq_true, if_false]
      rw [ih hrest, hprice]
      simp [add_assoc]

theorem processOrderItems_missing (productsS : List JObj)
    (pre : List OrderItem) (it : OrderItem) (post : List OrderItem)
    (hpre : pre.all (itemAvailable productsS) = true)
    (hmiss : storeGetById productsS it.productId = none) :
    ∀ acc total,
      processOrderItems productsS (pre ++ it :: post) acc total
        = Sum.inl (resErr 404
            ("Product with ID " ++ it.productId ++ " not found")) := by
  induction pre with
  | nil =>
    intro acc total
    rw [List.nil_append, processOrderItems, hmiss]
  | cons x pre ih =>
    intro acc total
    have hx : itemAvailable productsS x = true := by
      have := List.all_eq_true.mp hpre x (by simp)
      simpa using this
    have hpre2 : pre.all (itemAvailable productsS) = true := by
      rw [List.all_eq_true]
      intro y hy
      exact List.all_eq_true.mp hpre y (by simp [hy])
    cases hp : storeGetById productsS x.productId with
    | none => rw [itemAvailable, hp] at hx; cases hx
    | some prod =>
      have hstock : jTruthy (jGet prod "inStock") = true := by
        rw [itemAvailable, hp] at hx
        exact hx
      rw [List.cons_append]
      simp only [processOrderItems, hp, hstock, Bool.not_true,
        Bool.false_eq_true, if_false]
      exact ih hpre2 _ _

theorem processOrderItems_outOfStock (productsS : List JObj)
    (pre : List OrderItem) (it : OrderItem) (post : List OrderItem)
    (prod : JObj)
    (hpre : pre.all (itemAvailable productsS) = true)
    (hp : storeGetById productsS it.productId = some prod)
    (hstock : jTruthy (jGet prod "inStock") = false) :
    ∀ acc total,
      processOrderItems productsS (pre ++ it :: post) acc total
        = Sum.inl (resErr 400
            ("Product " ++ jStrD (jGet prod "name") ++ " is out of stock")) := by
  induction pre with
  | nil =>
    intro acc total
    rw [List.nil_append]
    simp only [processOrderItems, hp, hstock, Bool.not_false, if_true]
  | cons x pre ih =>
    intro acc total
    have hx : itemAvailable productsS x = true := by
      have := List.all_eq_true.mp hpre x (by simp)
      simpa using this
    have hpre2 : pre.all (itemAvailable productsS) = true := by
      rw [List.all_eq_true]
      intro y hy
      exact List.all_eq_true.mp hpre y (by simp [hy])
    cases hq : storeGetById productsS x.productId with
    | none => rw [itemAvailable, hq] at hx; cases hx
    | some prod2 =>
      have hstock2 : jTruthy (jGet prod2 "inStock") = true := by
        rw [itemAvailable, hq] at hx
        exact hx
      rw [List.cons_append]
      simp only [processOrderItems, hq, hstock2, Bool.not_true,
        Bool.false_eq_true, if_false]
      exact ih hpre2 _ _

theorem processOrderItems_err (productsS : List JObj) (items : List OrderItem)
    (h : items.all (itemAvailable productsS) = false) :
    ∀ acc total, ∃ e,
      processOrderItems productsS items acc total = Sum.inl e
        ∧ (e.status = 400 ∨ e.status = 404) ∧ e.data = none := by
  induction items with
  | nil => simp at h
  | cons it rest ih =>
    intro acc total
    cases hp : storeGetById productsS it.productId with
    | none =>
      refine ⟨resErr 404 ("Product with ID " ++ it.productId ++ " not found"),
        ?_, Or.inr rfl, rfl⟩
      simp only [processOrderItems, hp]
    | some prod =>
      cases hstock : jTruthy (jGet prod "inStock") with
      | false =>
        refine ⟨resErr 400
            ("Product " ++ jStrD (jGet prod "name") ++ " is out of stock"),
          ?_, Or.inl rfl, rfl⟩
        simp only [processOrderItems, hp, hstock, Bool.not_false, if_true]
      | true =>
        have hrest : rest.all (itemAvailable productsS) = false := by
          by_contra hc
          have hr : rest.all (itemAvailable productsS) = true := by
            cases hv : rest.all (itemAvailable productsS)
            · exact absurd hv hc
            · rfl
          have : (it :: rest).all (itemAvailable productsS) = true := by
            rw [List.all_cons, hr]
            rw [itemAvailable, hp]
            simp [hstock]
          rw [this] at h
          cases h
        simp only [processOrderItems, hp, hstock, Bool.not_true,
          Bool.false_eq_true, if_false]
        exact ih hrest _ _

/-- C1: a successful order creation stores the order with line snapshots
`{productId, quantity, price}` whose price comes from the product store at
creation time, a `totalAmount` equal to the sum of `price * quantity` over
the lines, and status `"pending"`. -/
theorem claim_C1_order_create_snapshot
    (ordersS usersS productsS : List JObj) (genId now userId : String)
    (items : List OrderItem)
    (huser : (storeGetById usersS userId).isSome = true)
    (hall : items.all (itemAvailable productsS) = true) :
    (ordersCreate ordersS usersS productsS genId now userId items).1.status
        = 201
      ∧ ∃ o,
        (ordersCreate ordersS usersS productsS genId now userId items).1.data
            = some o
        ∧ (ordersCreate ordersS usersS productsS genId now userId items).2
            = ordersS ++ [o]
        ∧ jGet o "status" = some (JVal.vStr "pending")
        ∧ jGet o "products" = some (JVal.vLines (items.map (fun it =>
            (it.productId, (it.quantity : ℚ),
              storedPrice productsS it.productId))))
        ∧ jGet o "totalAmount" = some (JVal.vNum ((items.map (fun it =>
            storedPrice productsS it.productId * (it.quantity : ℚ))).sum)) := by
  obtain ⟨u, hu⟩ := Option.isSome_iff_exists.mp huser
  have hloop := processOrderItems_ok productsS items hall [] 0
  rw [zero_add, List.nil_append] at hloop
  simp only [ordersCreate, hu, hloop, storeCreate]
  refine ⟨trivial, createRecord genId now _, rfl, rfl, ?_, ?_, ?_⟩
  · rw [jGet_createRecord, if_neg (by simp)]
    simp [jGet_cons]
  · rw [jGet_createRecord, if_neg (by simp)]
    simp [jGet_cons]
  · rw [jGet_createRecord, if_neg (by simp)]
    simp [jGet_cons]

/-- C2: order creation is all-or-nothing: a missing user yields 404
"User not found" with the order store untouched; any missing or
out-of-stock product in the list yields an error (404 naming the missing id
at the first failing line, 400 for an out-of-stock line) and never stores
anything; the single store write only happens after every check passes. -/
theorem claim_C2_order_create_atomic
    (ordersS usersS productsS : List JObj) (genId now userId : String)
    (items : List OrderItem) :
    (storeGetById usersS userId = none →
        ordersCreate ordersS usersS productsS genId now userId items
          = (resErr 404 "User not found", ordersS))
    ∧ ((storeGetById usersS userId).isSome = true →
        items.all (itemAvailable productsS) = false →
          (ordersCreate ordersS usersS productsS genId now userId items).2
              = ordersS
          ∧ ((ordersCreate ordersS usersS productsS genId now userId
                items).1.status = 400
             ∨ (ordersCreate ordersS usersS productsS genId now userId
                items).1.status = 404)
          ∧ (ordersCreate ordersS usersS productsS genId now userId
                items).1.data = none)
    ∧ (∀ pre it post, items = pre ++ it :: post →
        pre.all (itemAvailable productsS) = true →
        (storeGetById usersS userId).isSome = true →
          (storeGetById productsS it.productId = none →
            ordersCreate ordersS usersS productsS genId now userId items
              = (resErr 404
                  ("Product with ID " ++ it.productId ++ " not found"),
                 ordersS))
          ∧ (∀ prod, storeGetById productsS it.productId = some prod →
              jTruthy (jGet prod "inStock") = false →
              ordersCreate ordersS usersS productsS genId now userId items
                = (resErr 400
                    ("Product " ++ jStrD (jGet prod "name")
                      ++ " is out of stock"),
                   ordersS))) := by
  refine ⟨?_, ?_, ?_⟩
  · intro h
    rw [ordersCreate, h]
  · intro hu hbad
    obtain ⟨u, hu2⟩ := Option.isSome_iff_exists.mp hu
    obtain ⟨e, he, hcode, hdata⟩ :=
      processOrderItems_err productsS items hbad [] 0
    simp only [ordersCreate, hu2, he]
    exact ⟨trivial, hcode, hdata⟩
  · intro pre it post hsplit hpre hu
    obtain ⟨u, hu2⟩ := Option.isSome_iff_exists.mp hu
    constructor
    · intro hmiss
      simp only [ordersCreate, hu2, hsplit,
        processOrderItems_missing productsS pre it post hpre hmiss]
    · intro prod hp hstock
      simp only [ordersCreate, hu2, hsplit,
        processOrderItems_outOfStock productsS pre it post prod hpre hp hstock]

/-- Sample user store for closed witness instances. -/
def wUsers : List JObj :=
  [[("id", JVal.vStr "u-1"), ("name", JVal.vStr "John Doe"),
    ("email", JVal.vStr "john.doe@example.com"), ("age", JVal.vNum 30)]]

/-- Sample product store for closed witness instances: two in-stock products
with prices 10 and 5, and one out-of-stock product. -/
def wProducts : List JObj :=
  [[("id", JVal.vStr "p-1"), ("name", JVal.vStr "Widget"),
    ("price", JVal.vNum 10), ("inStock", JVal.vBool true)],
   [("id", JVal.vStr "p-2"), ("name", JVal.vStr "Gadget"),
    ("price", JVal.vNum 5), ("inStock", JVal.vBool true)],
   [("id", JVal.vStr "p-3"), ("name", JVal.vStr "Gone"),
    ("price", JVal.vNum 7), ("inStock", JVal.vBool false)]]

/-- Closed instance of C1, realising the spec's concrete example: line items
with prices 10 and 5 and quantities 2 and 3 give `totalAmount = 35`, with
status `"pending"`. -/
theorem claim_C1_order_create_snapshot_witness :
    (storeGetById wUsers "u-1").isSome = true
      ∧ [OrderItem.mk "p-1" 2,
          OrderItem.mk "p-2" 3].all (itemAvailable wProducts) = true
      ∧ (ordersCreate [] wUsers wProducts "o-1" "t0" "u-1"
          [OrderItem.mk "p-1" 2, OrderItem.mk "p-2" 3]).1.status = 201
      ∧ ∃ o,
          (ordersCreate [] wUsers wProducts "o-1" "t0" "u-1"
            [OrderItem.mk "p-1" 2, OrderItem.mk "p-2" 3]).1.data = some o
          ∧ jGet o "totalAmount" = some (JVal.vNum 35)
          ∧ jGet o "status" = some (JVal.vStr "pending") := by
  obtain ⟨hst, o, hdata, _, hpending, _, htotal⟩ :=
    claim_C1_order_create_snapshot [] wUsers wProducts "o-1" "t0" "u-1"
      [OrderItem.mk "p-1" 2, OrderItem.mk "p-2" 3] (by decide) (by decide)
  refine ⟨by decide, by decide, hst, o, hdata, ?_, hpending⟩
  rw [htotal]
  have h1 : storedPrice wProducts "p-1" = 10 := by decide
  have h2 : storedPrice wProducts "p-2" = 5 := by decide
  simp [h1, h2]
  norm_num

/-- Closed instance of C2: creating an order for an unknown user id returns
404 "User not found" and leaves the order store with the same contents (and
hence the same count) as before. -/
theorem claim_C2_order_create_atomic_witness :
    storeGetById wUsers "nobody" = none
      ∧ ordersCreate [] wUsers wProducts "o-1" "t0" "nobody"
          [OrderItem.mk "p-1" 1]
          = (resErr 404 "User not found", []) :=
  ⟨by decide,
    (claim_C2_order_create_atomic [] wUsers wProducts "o-1" "t0" "nobody"
      [OrderItem.mk "p-1" 1]).1 (by decide)⟩

/-- C3: POST /users with a body email exactly equal (case-sensitive string
equality) to some existing user's email returns 409 "User with this email
already exists" and leaves the collection unchanged, regardless of any other
field; when no user's email is exactly equal, the create is delegated to the
entity store. -/
theorem claim_C3_users_create_email_conflict
    (users : List JObj) (genId now : String) (body : JObj) :
    ((∃ u ∈ users, jGet u "email" = jGet body "email") →
        usersCreate users genId now body
          = (resErr 409 "User with this email already exists", users))
      ∧ ((∀ u ∈ users, jGet u "email" ≠ jGet body "email") →
        usersCreate users genId now body
          = (⟨201, "User created successfully",
              some (createRecord genId now body)⟩,
             users ++ [createRecord genId now body])) := by
  constructor
  · rintro ⟨u, hu, he⟩
    rw [usersCreate, if_pos]
    exact List.any_eq_true.mpr ⟨u, hu, by simp [he]⟩
  · intro h
    rw [usersCreate, if_neg]
    · rfl
    · intro hany
      obtain ⟨u, hu, hbe⟩ := List.any_eq_true.mp hany
      exact h u hu (by simpa using hbe)

/-- Closed instance of C3: a second user with email "john.doe@example.com"
but different name and age is rejected with 409 and the store is unchanged,
while the case-different email "John.Doe@example.com" is accepted and
delegated to the store (case-sensitive comparison). -/
theorem claim_C3_users_create_email_conflict_witness :
    (∃ u ∈ wUsers, jGet u "email"
        = jGet [("name", JVal.vStr "Other"),
            ("email", JVal.vStr "john.doe@example.com"),
            ("age", JVal.vNum 55)] "email")
      ∧ usersCreate wUsers "u-2" "t1"
          [("name", JVal.vStr "Other"),
           ("email", JVal.vStr "john.doe@example.com"),
           ("age", JVal.vNum 55)]
          = (resErr 409 "User with this email already exists", wUsers)
      ∧ (∀ u ∈ wUsers, jGet u "email"
          ≠ jGet [("name", JVal.vStr "Other"),
              ("email", JVal.vStr "John.Doe@example.com"),
              ("age", JVal.vNum 55)] "email")
      ∧ (usersCreate wUsers "u-2" "t1"
          [("name", JVal.vStr "Other"),
           ("email", JVal.vStr "John.Doe@example.com"),
           ("age", JVal.vNum 55)]).1.status = 201 := by
  refine ⟨by decide, ?_, by decide, ?_⟩
  · exact (claim_C3_users_create_email_conflict wUsers "u-2" "t1" _).1
      (by decide)
  · rw [(claim_C3_users_create_email_conflict wUsers "u-2" "t1" _).2
      (by decide)]

theorem recordIdIs_iff (p : String) (r : JObj) :
    recordIdIs p r = true ↔ jGet r "id" = some (JVal.vStr p) := by
  rw [recordIdIs]
  exact beq_iff_eq

/-- C9: order status transitions are unconstrained: PATCH with any value of
the status enumeration succeeds on an existing order and stores that status —
delivered back to pending included — while any value outside the enumeration
is rejected before the store is touched, with the shipped validation
middleware's 400 "Validation failed" envelope. -/
theorem claim_C9_order_status_unconstrained
    (ordersS : List JObj) (p now s : String) :
    (statusEnum.contains s = true →
        ∀ old, storeGetById ordersS p = some old →
          ∃ i m,
            ordersPatch ordersS p now [("status", JVal.vStr s)]
              = (⟨200, "Order updated successfully", some m⟩, ordersS.set i m)
            ∧ jGet m "status" = some (JVal.vStr s))
      ∧ (statusEnum.contains s = false →
          ordersPatch ordersS p now [("status", JVal.vStr s)]
            = (resErr 400 "Validation failed", ordersS)) := by
  have hb : jGet [("status", JVal.vStr s)] "status" = some (JVal.vStr s) := by
    simp [jGet_cons]
  constructor
  · intro hs old hold
    have hgate : ordersPatchStatusOk [("status", JVal.vStr s)] = true := by
      simp only [ordersPatchStatusOk, hb]
      exact hs
    obtain ⟨i, hi, hfi, hget, hpe, hmin, heq⟩ :=
      storeUpdate_found ordersS p now [("status", JVal.vStr s)] old hold
    refine ⟨i, mergedRecord old [("status", JVal.vStr s)] now, ?_, ?_⟩
    · simp only [ordersPatch, hgate, Bool.not_true, Bool.false_eq_true,
        if_false, hold, heq]
    · rw [jGet_mergedRecord, if_neg (by simp), jGet_cons, if_pos (by simp)]
      simp
  · intro hs
    have hgate : ordersPatchStatusOk [("status", JVal.vStr s)] = false := by
      simp only [ordersPatchStatusOk, hb]
      exact hs
    rw [ordersPatch, if_pos (by simp [hgate])]

/-- A delivered sample order. -/
def wOrder1 : JObj :=
  [("id", JVal.vStr "o-1"), ("userId", JVal.vStr "u-1"),
   ("products", JVal.vLines [("p-1", 1, 10)]),
   ("totalAmount", JVal.vNum 10), ("status", JVal.vStr "delivered")]

/-- Sample order store for closed witness instances. -/
def wOrders : List JObj := [wOrder1]

/-- Closed instance of C9: PATCH moves a delivered order back to pending
(200, stored status "pending"), while the out-of-enumeration value "bogus"
is rejected by the validation middleware with its 400 "Validation failed"
envelope and the store is untouched. -/
theorem claim_C9_order_status_unconstrained_witness :
    statusEnum.contains "pending" = true
      ∧ jGet wOrder1 "status" = some (JVal.vStr "delivered")
      ∧ (∃ i m,
          ordersPatch wOrders "o-1" "t1" [("status", JVal.vStr "pending")]
            = (⟨200, "Order updated successfully", some m⟩, wOrders.set i m)
          ∧ jGet m "status" = some (JVal.vStr "pending"))
      ∧ statusEnum.contains "bogus" = false
      ∧ ordersPatch wOrders "o-1" "t1" [("status", JVal.vStr "bogus")]
          = (resErr 400 "Validation failed", wOrders) :=
  ⟨by decide, by decide,
    (claim_C9_order_status_unconstrained wOrders "o-1" "t1" "pending").1
      (by decide) wOrder1 (by decide),
    by decide,
    (claim_C9_order_status_unconstrained wOrders "o-1" "t1" "bogus").2
      (by decide)⟩

/-- C8: PUT /orders/:id requires the order to exist and revalidates that the
supplied userId and every supplied productId exist (404 otherwise), performs
no stock check, and stores the caller-supplied line prices and totalAmount
verbatim without recomputing the total from the lines. -/
theorem claim_C8_order_put_stores_as_given
    (ordersS usersS productsS : List JObj) (p now : String)
    (b : OrderPutBody) :
    (storeGetById ordersS p = none →
        ordersPut ordersS usersS productsS p now b
          = (resErr 404 "Order not found", ordersS))
      ∧ (∀ old, storeGetById ordersS p = some old →
          (storeGetById usersS b.userId = none →
              ordersPut ordersS usersS productsS p now b
                = (resErr 404 "User not found", ordersS))
          ∧ (∀ u, storeGetById usersS b.userId = some u →
              (∀ it, b.products.find?
                    (fun it => !(storeGetById productsS it.1).isSome)
                    = some it →
                  ordersPut ordersS usersS productsS p now b
                    = (resErr 404
                        ("Product with ID " ++ it.1 ++ " not found"),
                       ordersS))
              ∧ (b.products.all
                    (fun it => (storeGetById productsS it.1).isSome) = true →
                  ∃ i m,
                    ordersPut ordersS usersS productsS p now b
                      = (⟨200, "Order updated successfully", some m⟩,
                         ordersS.set i m)
                    ∧ jGet m "products" = some (JVal.vLines b.products)
                    ∧ jGet m "totalAmount"
                        = some (JVal.vNum b.totalAmount)))) := by
  constructor
  · intro h
    rw [ordersPut, h]
  · intro old hold
    constructor
    · intro h
      simp only [ordersPut, hold, h]
    · intro u hu
      constructor
      · intro it hit
        simp only [ordersPut, hold, hu, hit]
      · intro hall
        have hnone : b.products.find?
            (fun it => !(storeGetById productsS it.1).isSome) = none := by
          rw [List.find?_eq_none]
          intro it hin
          have h2 : (storeGetById productsS it.1).isSome = true := by
            simpa using List.all_eq_true.mp hall it hin
          simp [h2]
        obtain ⟨i, hi, hfi, hget, hpe, hmin, heq⟩ :=
          storeUpdate_found ordersS p now (putBodyObj b) old hold
        refine ⟨i, mergedRecord old (putBodyObj b) now, ?_, ?_, ?_⟩
        · simp only [ordersPut, hold, hu, hnone, heq]
        · rw [jGet_mergedRecord, if_neg (by simp)]
          rw [putBodyObj, jGet_append, jGet_cons, if_neg (by simp),
            jGet_cons, if_pos (by simp)]
          simp
        · rw [jGet_mergedRecord, if_neg (by simp)]
          rw [putBodyObj, jGet_append, jGet_cons, if_neg (by simp),
            jGet_cons, if_neg (by simp), jGet_cons, if_pos (by simp)]
          simp

/-- Closed instance of C8: replacing the sample order with a body that lists
the out-of-stock product `p-3` at a caller-chosen price 99 and a caller
supplied totalAmount 123 (which differs from 99 * 1) succeeds with 200, and
the stored order carries exactly those values. -/
theorem claim_C8_order_put_stores_as_given_witness :
    jGet ((storeGetById wProducts "p-3").getD []) "inStock"
        = some (JVal.vBool false)
      ∧ ((123 : ℚ) ≠ 99 * 1)
      ∧ (∃ i m,
          ordersPut wOrders wUsers wProducts "o-1" "t1"
            (OrderPutBody.mk "u-1" [("p-3", 1, 99)] 123 none)
            = (⟨200, "Order updated successfully", some m⟩, wOrders.set i m)
          ∧ jGet m "products"
              = some (JVal.vLines [("p-3", 1, 99)])
          ∧ jGet m "totalAmount" = some (JVal.vNum 123)) := by
  refine ⟨by decide, by norm_num, ?_⟩
  exact (((claim_C8_order_put_stores_as_given wOrders wUsers wProducts
      "o-1" "t1" (OrderPutBody.mk "u-1" [("p-3", 1, 99)] 123 none)).2
    wOrder1 (by decide)).2 ((storeGetById wUsers "u-1").getD [])
      (by decide)).2 (by decide)

/-- With pairwise-distinct ids, no record other than the one at index `i`
matches the id found at `i`. -/
theorem other_ids_ne (usersS : List JObj) (p : String) (i : ℕ)
    (hi : i < usersS.length) (hid : (idsOf usersS).Nodup)
    (hpi : recordIdIs p (usersS.get ⟨i, hi⟩) = true) :
    ∀ j (hj : j < usersS.length), j ≠ i →
      recordIdIs p (usersS.get ⟨j, hj⟩) = false := by
  intro j hj hne
  cases hc : recordIdIs p (usersS.get ⟨j, hj⟩) with
  | false => rfl
  | true =>
    exfalso
    have e1 : jGet (usersS.get ⟨i, hi⟩) "id" = some (JVal.vStr p) :=
      (recordIdIs_iff p _).mp hpi
    have e2 : jGet (usersS.get ⟨j, hj⟩) "id" = some (JVal.vStr p) :=
      (recordIdIs_iff p _).mp hc
    have hlen : (idsOf usersS).length = usersS.length := by simp [idsOf]
    have g1 : (idsOf usersS).get ⟨i, by rw [hlen]; exact hi⟩
        = some (JVal.vStr p) := by
      simpa [idsOf] using e1
    have g2 : (idsOf usersS).get ⟨j, by rw [hlen]; exact hj⟩
        = some (JVal.vStr p) := by
      simpa [idsOf] using e2
    have hinj := List.nodup_iff_injective_get.mp hid
    have := hinj (g2.trans g1.symm)
    exact hne (by simpa using congrArg Fin.val this)

/-- After replacing index `i` by a record with a different id, a `getById`
for the old id finds nothing (given no other record carried it). -/
theorem storeGetById_set_none (l : List JObj) (i : ℕ) (hi : i < l.length)
    (m : JObj) (p : String) (hm : recordIdIs p m = false)
    (hothers : ∀ j (hj : j < l.length), j ≠ i →
      recordIdIs p (l.get ⟨j, hj⟩) = false) :
    storeGetById (l.set i m) p = none := by
  rw [storeGetById, List.find?_eq_none]
  intro x hx hpx
  obtain ⟨⟨j, hj⟩, hxe⟩ := List.mem_iff_get.mp hx
  have hj' : j < l.length := by simpa using hj
  by_cases hji : j = i
  · subst hji
    have hxm : x = m := by
      rw [← hxe]
      simp [List.getElem_set_self]
    rw [hxm, hm] at hpx
    cases hpx
  · have hxl : x = l.get ⟨j, hj'⟩ := by
      rw [← hxe]
      simp [List.getElem_set_ne (fun h => hji h.symm)]
    rw [hxl, hothers j hj' hji] at hpx
    cases hpx

/-- C10: PATCH hands the raw request body to the generic store merge, so no
field is protected: a users PATCH whose body carries an `id` (or `createdAt`)
overwrites that field — after which a GET under the old id is not-found — and
an orders PATCH whose body carries a `totalAmount` or a `products` list
overwrites the stored field without any recomputation of the total. -/
theorem claim_C10_patch_overwrites_system_fields
    (usersS : List JObj) (p q now : String) (body : JObj)
    (hid : (idsOf usersS).Nodup)
    (hbid : jGet body "id" = some (JVal.vStr q))
    (hqp : q ≠ p)
    (hbe : jGet body "email" = none) :
    (∀ old, storeGetById usersS p = some old →
      ∃ i m,
        usersPatch usersS p now body
          = (⟨200, "User updated successfully", some m⟩, usersS.set i m)
        ∧ jGet m "id" = some (JVal.vStr q)
        ∧ (∀ v, jGet body "createdAt" = some v → jGet m "createdAt" = some v)
        ∧ storeGetById (usersS.set i m) p = none)
    ∧ (∀ (ordersS : List JObj) (p2 now2 : String) (body2 : JObj)
        (old2 : JObj),
        storeGetById ordersS p2 = some old2 →
        ordersPatchStatusOk body2 = true →
          ∃ i2 m2,
            ordersPatch ordersS p2 now2 body2
              = (⟨200, "Order updated successfully", some m2⟩,
                 ordersS.set i2 m2)
            ∧ (∀ v, jGet body2 "totalAmount" = some v →
                jGet m2 "totalAmount" = some v)
            ∧ (∀ w, jGet body2 "products" = some w →
                jGet m2 "products" = some w)) := by
  constructor
  · intro old hold
    obtain ⟨i, hi, hfi, hget, hpe, hmin, heq⟩ :=
      storeUpdate_found usersS p now body old hold
    have hguard : (jTruthy (jGet body "email")
        && (!(jGet body "email" == jGet old "email"))
        && emailClash usersS p body) = false := by
      rw [hbe]
      rfl
    have hmid : jGet (mergedRecord old body now) "id"
        = some (JVal.vStr q) := by
      rw [jGet_mergedRecord, if_neg (by simp), hbid]
      rfl
    refine ⟨i, mergedRecord old body now, ?_, hmid, ?_, ?_⟩
    · simp only [usersPatch, hold, hguard, Bool.false_eq_true, if_false, heq]
    · intro v hv
      rw [jGet_mergedRecord, if_neg (by simp), hv]
      rfl
    · refine storeGetById_set_none usersS i hi _ p ?_ ?_
      · rw [recordIdIs, hmid]
        simp [hqp]
      · refine other_ids_ne usersS p i hi hid ?_
        rw [hget]
        exact hpe
  · intro ordersS p2 now2 body2 old2 hold2 hgate2
    obtain ⟨i2, hi2, hfi2, hget2, hpe2, hmin2, heq2⟩ :=
      storeUpdate_found ordersS p2 now2 body2 old2 hold2
    refine ⟨i2, mergedRecord old2 body2 now2, ?_, ?_, ?_⟩
    · simp only [ordersPatch, hgate2, Bool.not_true, Bool.false_eq_true,
        if_false, hold2, heq2]
    · intro v hv
      rw [jGet_mergedRecord, if_neg (by simp), hv]
      rfl
    · intro w hw
      rw [jGet_mergedRecord, if_neg (by simp), hw]
      rfl

/-- Closed instance of C10: patching the only user with
`{id: "u-2", createdAt: "1999"}` succeeds, the stored record's id and
createdAt become the supplied values, GET under the old id "u-1" is
not-found; patching the sample order with
`{totalAmount: 999, products: [("p-9", 2, 3)]}` stores both as supplied. -/
theorem claim_C10_patch_overwrites_system_fields_witness :
    (idsOf wUsers).Nodup
      ∧ jGet [("id", JVal.vStr "u-2"), ("createdAt", JVal.vStr "1999")] "email"
          = none
      ∧ (∃ i m,
          usersPatch wUsers "u-1" "t1"
            [("id", JVal.vStr "u-2"), ("createdAt", JVal.vStr "1999")]
            = (⟨200, "User updated successfully", some m⟩, wUsers.set i m)
          ∧ jGet m "id" = some (JVal.vStr "u-2")
          ∧ jGet m "createdAt" = some (JVal.vStr "1999")
          ∧ storeGetById (wUsers.set i m) "u-1" = none)
      ∧ (∃ i2 m2,
          ordersPatch wOrders "o-1" "t1"
            [("totalAmount", JVal.vNum 999),
             ("products", JVal.vLines [("p-9", 2, 3)])]
            = (⟨200, "Order updated successfully", some m2⟩,
               wOrders.set i2 m2)
          ∧ jGet m2 "totalAmount" = some (JVal.vNum 999)
          ∧ jGet m2 "products"
              = some (JVal.vLines [("p-9", 2, 3)])) := by
  have h := claim_C10_patch_overwrites_system_fields wUsers "u-1" "u-2" "t1"
    [("id", JVal.vStr "u-2"), ("createdAt", JVal.vStr "1999")]
    (by decide) (by decide) (by decide) (by decide)
  obtain ⟨i, m, hres, hmid, hca, hnone⟩ :=
    h.1 ((storeGetById wUsers "u-1").getD []) (by decide)
  obtain ⟨i2, m2, hres2, hta, hpr⟩ :=
    h.2 wOrders "o-1" "t1"
      [("totalAmount", JVal.vNum 999),
       ("products", JVal.vLines [("p-9", 2, 3)])]
      wOrder1 (by decide) (by decide)
  exact ⟨by decide, by decide, ⟨i, m, hres, hmid, hca _ (by decide), hnone⟩,
    ⟨i2, m2, hres2, hta _ (by decide), hpr _ (by decide)⟩⟩

/-! ### Pagination lemmas -/

theorem le_jsCeilDiv_mul (a k : ℕ) (hk : 1 ≤ k) : a ≤ jsCeilDiv a k * k := by
  rw [jsCeilDiv, Nat.mul_comm]
  have hmod := Nat.div_add_mod (a + k - 1) k
  have hlt : (a + k - 1) % k < k := Nat.mod_lt _ (by omega)
  set q := (a + k - 1) / k
  set r := (a + k - 1) % k
  set m := k * q with hm
  omega

theorem take_drop_flatten {α : Type} (k : ℕ) (hk : 1 ≤ k) :
    ∀ (n : ℕ) (l : List α), l.length ≤ n * k →
      ((List.range n).map (fun j => (l.drop (j * k)).take k)).flatten = l := by
  intro n
  induction n with
  | zero =>
    intro l hl
    have h0 : l.length = 0 := by
      simpa using hl
    have : l = [] := List.length_eq_zero.mp h0
    subst this
    simp
  | succ n ih =>
    intro l hl
    rw [List.range_succ_eq_map, List.map_cons, List.map_map,
      List.flatten_cons]
    have hhead : (l.drop (0 * k)).take k = l.take k := by simp
    have htail :
        (List.range n).map ((fun j => (l.drop (j * k)).take k) ∘ Nat.succ)
          = (List.range n).map (fun j => ((l.drop k).drop (j * k)).take k) := by
      refine List.map_congr_left ?_
      intro j hj
      simp only [Function.comp]
      rw [List.drop_drop]
      have harg : Nat.succ j * k = k + j * k := by
        rw [Nat.succ_mul]
        omega
      rw [harg]
    rw [hhead, htail, ih (l.drop k) ?_]
    · exact List.take_append_drop k l
    · rw [List.length_drop]
      have : (n + 1) * k = n * k + k := by rw [Nat.succ_mul]
      omega

theorem listResponse_data_length_le (l : List JObj) (qp ql : Option ℕ) :
    (listResponse l qp ql).data.length ≤ (listResponse l qp ql).pagination.limit := by
  show (jsSlice l ((qp.getD 1 - 1) * ql.getD 10) (qp.getD 1 * ql.getD 10)).length
      ≤ ql.getD 10
  rw [jsSlice, List.length_take]
  refine le_trans (min_le_left _ _) ?_
  cases hp : qp.getD 1 with
  | zero => simp
  | succ p =>
    rw [Nat.succ_sub_one, Nat.succ_mul]
    omega

theorem listResponse_flatten (l : List JObj) (ql : Option ℕ)
    (hk : 1 ≤ ql.getD 10) :
    ((List.range' 1 (jsCeilDiv l.length (ql.getD 10))).map
        (fun p => (listResponse l (some p) ql).data)).flatten = l := by
  set k := ql.getD 10 with hkdef
  rw [List.range'_eq_map_range, List.map_map]
  have hcongr : ∀ j ∈ List.range (jsCeilDiv l.length k),
      ((fun p => (listResponse l (some p) ql).data) ∘ (1 + ·)) j
        = (l.drop (j * k)).take k := by
    intro j hj
    show jsSlice l ((1 + j - 1) * k) ((1 + j) * k) = (l.drop (j * k)).take k
    rw [jsSlice]
    have h1 : 1 + j - 1 = j := by omega
    rw [h1]
    have h2 : (1 + j) * k - j * k = k := by
      rw [Nat.add_mul, Nat.one_mul]
      omega
    rw [h2]
  rw [List.map_congr_left hcongr]
  exact take_drop_flatten k hk _ l (le_jsCeilDiv_mul l.length k hk)

/-- C5: for every validated list request (page ≥ 1, 1 ≤ limit ≤ 100,
defaults 1 and 10) on each of the three resources: the reported total is the
size of the filtered pre-pagination set, totalPages is the ceiling division
of total by limit, the returned slice has at most limit records, and
concatenating the data of pages 1..totalPages in order reproduces the whole
filtered set in order (hence with no duplicates beyond those of the filtered
set itself). -/
theorem claim_C5_pagination_invariant
    (users products orders : List JObj)
    (uq : UsersQuery) (pq : ProductsQuery) (oq : OrdersQuery)
    (hup : ∀ n, uq.page = some n → 1 ≤ n)
    (hul : ∀ n, uq.limit = some n → 1 ≤ n ∧ n ≤ 100)
    (hpp : ∀ n, pq.page = some n → 1 ≤ n)
    (hpl : ∀ n, pq.limit = some n → 1 ≤ n ∧ n ≤ 100)
    (hop : ∀ n, oq.page = some n → 1 ≤ n)
    (hol : ∀ n, oq.limit = some n → 1 ≤ n ∧ n ≤ 100) :
    ((usersList users uq).pagination.total
        = (usersFilter users uq.name uq.email).length
      ∧ (usersList users uq).pagination.totalPages
          = (usersList users uq).pagination.total
              ⌈/⌉ (usersList users uq).pagination.limit
      ∧ (usersList users uq).data.length ≤ (usersList users uq).pagination.limit
      ∧ ((List.range' 1 (usersList users uq).pagination.totalPages).map
            (fun p => (usersList users {uq with page := some p}).data)).flatten
          = usersFilter users uq.name uq.email)
    ∧ ((productsList products pq).pagination.total
        = (productsFilter products pq).length
      ∧ (productsList products pq).pagination.totalPages
          = (productsList products pq).pagination.total
              ⌈/⌉ (productsList products pq).pagination.limit
      ∧ (productsList products pq).data.length
          ≤ (productsList products pq).pagination.limit
      ∧ ((List.range' 1 (productsList products pq).pagination.totalPages).map
            (fun p => (productsList products {pq with page := some p}).data)).flatten
          = productsFilter products pq)
    ∧ ((ordersList orders oq).pagination.total
        = (ordersFilter orders oq).length
      ∧ (ordersList orders oq).pagination.totalPages
          = (ordersList orders oq).pagination.total
              ⌈/⌉ (ordersList orders oq).pagination.limit
      ∧ (ordersList orders oq).data.length
          ≤ (ordersList orders oq).pagination.limit
      ∧ ((List.range' 1 (ordersList orders oq).pagination.totalPages).map
            (fun p => (ordersList orders {oq with page := some p}).data)).flatten
          = ordersFilter orders oq) := by
  have hu10 : 1 ≤ uq.limit.getD 10 := by
    cases h : uq.limit with
    | none => decide
    | some n => simpa using (hul n h).1
  have hp10 : 1 ≤ pq.limit.getD 10 := by
    cases h : pq.limit with
    | none => decide
    | some n => simpa using (hpl n h).1
  have ho10 : 1 ≤ oq.limit.getD 10 := by
    cases h : oq.limit with
    | none => decide
    | some n => simpa using (hol n h).1
  refine ⟨⟨rfl, ?_, ?_, ?_⟩, ⟨rfl, ?_, ?_, ?_⟩, ⟨rfl, ?_, ?_, ?_⟩⟩
  · rw [Nat.ceilDiv_eq_add_pred_div]
    rfl
  · exact listResponse_data_length_le (usersFilter users uq.name uq.email)
      uq.page uq.limit
  · exact listResponse_flatten (usersFilter users uq.name uq.email)
      uq.limit hu10
  · rw [Nat.ceilDiv_eq_add_pred_div]
    rfl
  · exact listResponse_data_length_le (productsFilter products pq)
      pq.page pq.limit
  · exact listResponse_flatten (productsFilter products pq) pq.limit hp10
  · rw [Nat.ceilDiv_eq_add_pred_div]
    rfl
  · exact listResponse_data_length_le (ordersFilter orders oq)
      oq.page oq.limit
  · exact listResponse_flatten (ordersFilter orders oq) oq.limit ho10

/-- Closed instance of C5: listing the one-user store with limit 1 returns at
most one record per page and concatenating all pages reproduces the filtered
store. -/
theorem claim_C5_pagination_invariant_witness :
    (∀ n, (some 1 : Option ℕ) = some n → 1 ≤ n ∧ n ≤ 100)
      ∧ (usersList wUsers ⟨none, none, none, some 1⟩).data.length
          ≤ (usersList wUsers ⟨none, none, none, some 1⟩).pagination.limit
      ∧ ((List.range' 1
            (usersList wUsers ⟨none, none, none, some 1⟩).pagination.totalPages).map
            (fun p => (usersList wUsers
              {(⟨none, none, none, some 1⟩ : UsersQuery) with
                page := some p}).data)).flatten
          = usersFilter wUsers none none := by
  have h := claim_C5_pagination_invariant wUsers [] []
    ⟨none, none, none, some 1⟩
    ⟨none, none, none, none, none, none, none⟩
    ⟨none, none, none, none, none, none⟩
    (fun n hn => Option.noConfusion hn)
    (fun n hn => by cases hn; exact ⟨le_refl 1, by norm_num⟩)
    (fun n hn => Option.noConfusion hn)
    (fun n hn => Option.noConfusion hn)
    (fun n hn => Option.noConfusion hn)
    (fun n hn => Option.noConfusion hn)
  exact ⟨fun n hn => by cases hn; exact ⟨le_refl 1, by norm_num⟩,
    h.1.2.2.1, h.1.2.2.2⟩

/-! ### Email-uniqueness lemmas -/

theorem nodup_set_of_ne {β : Type} (l : List β) (i : ℕ) (hi : i < l.length)
    (e : β) (hl : l.Nodup)
    (he : ∀ j (hj : j < l.length), j ≠ i → l.get ⟨j, hj⟩ ≠ e) :
    (l.set i e).Nodup := by
  rw [List.nodup_iff_injective_get] at hl ⊢
  rintro ⟨j1, hj1⟩ ⟨j2, hj2⟩ hgg
  have hl1 : j1 < l.length := by simpa using hj1
  have hl2 : j2 < l.length := by simpa using hj2
  have hv : ∀ (j : ℕ) (hj : j < (l.set i e).length) (hj2 : j < l.length),
      (l.set i e).get ⟨j, hj⟩ = if i = j then e else l.get ⟨j, hj2⟩ := by
    intro j hj hj2
    by_cases h : i = j
    · subst h
      simp [List.getElem_set_self]
    · simp [List.getElem_set_ne h, h]
  rw [hv j1 hj1 hl1, hv j2 hj2 hl2] at hgg
  apply Fin.ext
  show j1 = j2
  by_cases h1 : i = j1 <;> by_cases h2 : i = j2
  · omega
  · rw [if_pos h1, if_neg h2] at hgg
    exact absurd hgg.symm (he j2 hl2 (fun h => h2 h.symm))
  · rw [if_neg h1, if_pos h2] at hgg
    exact absurd hgg (he j1 hl1 (fun h => h1 h.symm))
  · rw [if_neg h1, if_neg h2] at hgg
    have := hl hgg
    simpa using congrArg Fin.val this

theorem emailsOf_set (users : List JObj) (i : ℕ) (m : JObj) :
    emailsOf (users.set i m) = (emailsOf users).set i (jGet m "email") := by
  rw [emailsOf, emailsOf, List.map_set]

/-- The store-update step of the users PUT and PATCH handlers preserves email
uniqueness provided either the merged email equals the current one or the
handler's duplicate scan came back empty. -/
theorem update_emails_nodup (users : List JObj) (p now : String) (body : JObj)
    (existing : JObj) (hge : storeGetById users p = some existing)
    (hem : (emailsOf users).Nodup) (hid : (idsOf users).Nodup)
    (hsafe : (jGet body "email").or (jGet existing "email")
        = jGet existing "email"
      ∨ emailClash users p body = false) :
    (emailsOf (storeUpdate users p body now).2).Nodup := by
  obtain ⟨i, hi, hfi, hget, hpe, hmin, heq⟩ :=
    storeUpdate_found users p now body existing hge
  rw [heq]
  have hme : jGet (mergedRecord existing body now) "email"
      = (jGet body "email").or (jGet existing "email") := by
    rw [jGet_mergedRecord, if_neg (by simp)]
  have hlen : (emailsOf users).length = users.length := by simp [emailsOf]
  have hgetj : ∀ (j : ℕ) (hj : j < (emailsOf users).length)
      (hj2 : j < users.length),
      (emailsOf users).get ⟨j, hj⟩ = jGet (users.get ⟨j, hj2⟩) "email" := by
    intro j hj hj2
    simp [emailsOf]
  have hgi : jGet (users.get ⟨i, hi⟩) "email" = jGet existing "email" := by
    rw [hget]
  rw [emailsOf_set]
  refine nodup_set_of_ne _ i (by rw [hlen]; exact hi) _ hem ?_
  intro j hj hji
  have hjlt : j < users.length := by rw [hlen] at hj; exact hj
  rw [hgetj j hj hjlt, hme]
  have hsame : ∀ hv : (jGet body "email").or (jGet existing "email")
      = jGet existing "email",
      jGet (users.get ⟨j, hjlt⟩) "email"
        ≠ (jGet body "email").or (jGet existing "email") := by
    intro hv hcontra
    rw [hv, ← hgi] at hcontra
    have h1 : (emailsOf users).get ⟨j, hj⟩
        = (emailsOf users).get ⟨i, by rw [hlen]; exact hi⟩ := by
      rw [hgetj j hj hjlt, hgetj i _ hi]
      exact hcontra
    have hinj := List.nodup_iff_injective_get.mp hem h1
    exact hji (by simpa using congrArg Fin.val hinj)
  rcases hsafe with hv | hclash
  · exact hsame hv
  · cases hbe : jGet body "email" with
    | none =>
      have hv : (jGet body "email").or (jGet existing "email")
          = jGet existing "email" := by
        rw [hbe]
        simp
      have h2 := hsame hv
      rw [hbe] at h2
      exact h2
    | some v =>
      show jGet (users.get ⟨j, hjlt⟩) "email" ≠ some v
      intro hcontra
      have hjid : jGet (users.get ⟨j, hjlt⟩) "id" ≠ some (JVal.vStr p) := by
        have := other_ids_ne users p i hi hid
          (by rw [hget]; exact hpe) j hjlt hji
        intro hcid
        rw [(recordIdIs_iff p _).symm.mp hcid] at this
        cases this
      have hjid2 : jGet users[j] "id" ≠ some (JVal.vStr p) := by
        simpa using hjid
      have : emailClash users p body = true := by
        rw [emailClash, List.any_eq_true]
        refine ⟨users.get ⟨j, hjlt⟩, List.get_mem users j hjlt, ?_⟩
        rw [hcontra, hbe]
        simp [hjid2]
      rw [this] at hclash
      cases hclash

/-- A user store with pairwise-distinct emails but a duplicated id (reachable
because PATCH does not protect the id field, see C10). -/
def cUsers : List JObj :=
  [[("id", JVal.vStr "A"), ("name", JVal.vStr "One"),
    ("email", JVal.vStr "a@x.com"), ("age", JVal.vNum 30)],
   [("id", JVal.vStr "A"), ("name", JVal.vStr "Two"),
    ("email", JVal.vStr "b@x.com"), ("age", JVal.vNum 40)]]

/-- C4 as stated is false: starting from a state in which no two users share
an email, a validated PATCH (valid nonempty email, 200 response) can produce
two users with equal emails, because the duplicate-email scan excludes every
record whose id equals the path parameter — which, after an id collision, is
more than the record being updated. -/
theorem claim_C4_email_uniqueness_counterexample :
    (emailsOf cUsers).Nodup
      ∧ validEmailField [("email", JVal.vStr "b@x.com")] = true
      ∧ (usersPatch cUsers "A" "t1"
          [("email", JVal.vStr "b@x.com")]).1.status = 200
      ∧ ¬ (emailsOf (usersPatch cUsers "A" "t1"
          [("email", JVal.vStr "b@x.com")]).2).Nodup :=
  ⟨by decide, by decide, by decide, by decide⟩

/-- C4 (amended): with the additional hypothesis — forced by the
counterexample — that ids are also pairwise distinct, and for PATCH bodies
whose email field is truthy when present (guaranteed by the validation
gate), every users operation (create, PUT, PATCH, delete) preserves the
property that no two users have equal emails; moreover PUT and PATCH reject
a changed email that clashes with any other user's email with 409 and leave
the collection unchanged. -/
theorem claim_C4_email_uniqueness_amended
    (users : List JObj) (genId now p : String) (body : JObj) :
    ((emailsOf users).Nodup →
        (emailsOf (usersCreate users genId now body).2).Nodup)
    ∧ ((emailsOf users).Nodup →
        (emailsOf (usersDelete users p).2).Nodup)
    ∧ ((emailsOf users).Nodup → (idsOf users).Nodup →
        (emailsOf (usersPut users p now body).2).Nodup)
    ∧ ((emailsOf users).Nodup → (idsOf users).Nodup →
        validEmailField body = true →
        (emailsOf (usersPatch users p now body).2).Nodup)
    ∧ (∀ existing, storeGetById users p = some existing →
        jGet body "email" ≠ jGet existing "email" →
        emailClash users p body = true →
          usersPut users p now body
            = (resErr 409 "User with this email already exists", users)
          ∧ (jTruthy (jGet body "email") = true →
              usersPatch users p now body
                = (resErr 409 "User with this email already exists",
                   users))) := by
  refine ⟨?_, ?_, ?_, ?_, ?_⟩
  · intro hem
    cases hc : users.any (fun u => jGet u "email" == jGet body "email") with
    | true => simpa [usersCreate, hc] using hem
    | false =>
      have hnew : jGet (createRecord genId now body) "email"
          = jGet body "email" := by
        rw [jGet_createRecord, if_neg (by simp)]
        cases h : jGet body "email" with
        | some v => rfl
        | none => simp
      have hred : (usersCreate users genId now body).2
          = users ++ [createRecord genId now body] := by
        simp [usersCreate, hc, storeCreate]
      rw [hred, emailsOf, List.map_append]
      refine List.nodup_append.mpr ⟨hem, by simp, ?_⟩
      intro a ha hb
      obtain ⟨u, hu, hue⟩ := List.mem_map.mp ha
      have hxa : a = jGet body "email" := by
        simp only [List.map_cons, List.map_nil, List.mem_singleton] at hb
        rw [hb, hnew]
      have hbeq : (jGet u "email" == jGet body "email") = true := by
        rw [hue, hxa] at *
        rw [← hxa]
        simp [hue, hxa]
      have hany : users.any (fun u => jGet u "email" == jGet body "email")
          = true := List.any_eq_true.mpr ⟨u, hu, hbeq⟩
      rw [hany] at hc
      cases hc
  · intro hem
    cases hfi : jsFindIndex (recordIdIs p) users with
    | none => simpa [usersDelete, storeDelete, hfi] using hem
    | some i =>
      have hred : (usersDelete users p).2 = users.eraseIdx i := by
        simp [usersDelete, storeDelete, hfi]
      rw [hred]
      exact hem.sublist
        ((List.eraseIdx_sublist users i).map (fun u => jGet u "email"))
  · intro hem hid
    cases hge : storeGetById users p with
    | none => simpa [usersPut, hge] using hem
    | some existing =>
      cases hguard : ((!(jGet body "email" == jGet existing "email"))
          && emailClash users p body) with
      | true => simpa [usersPut, hge, hguard] using hem
      | false =>
        have hred : (usersPut users p now body).2
            = (storeUpdate users p body now).2 := by
          simp [usersPut, hge, hguard]
        rw [hred]
        refine update_emails_nodup users p now body existing hge hem hid ?_
        cases hx : (!(jGet body "email" == jGet existing "email")) with
        | false =>
          left
          have heqv : jGet body "email" = jGet existing "email" := by
            have hbeq : (jGet body "email" == jGet existing "email")
                = true := by simpa using hx
            simpa using hbeq
          rw [heqv]
          cases h : jGet existing "email" <;> simp
        | true =>
          right
          rw [hx] at hguard
          simpa using hguard
  · intro hem hid hval
    cases hge : storeGetById users p with
    | none => simpa [usersPatch, hge] using hem
    | some existing =>
      cases hbe : jGet body "email" with
      | none =>
        have hguard : (jTruthy (jGet body "email")
            && !(jGet body "email" == jGet existing "email")
            && emailClash users p body) = false := by
          rw [hbe]
          rfl
        have hred : (usersPatch users p now body).2
            = (storeUpdate users p body now).2 := by
          simp [usersPatch, hge, hguard]
        rw [hred]
        refine update_emails_nodup users p now body existing hge hem hid ?_
        left
        rw [hbe]
        simp
      | some v =>
        have htr : jTruthy (jGet body "email") = true := by
          rw [validEmailField, hbe] at hval
          rw [hbe]
          exact hval
        by_cases heqv : jGet body "email" = jGet existing "email"
        · have hguard : (jTruthy (jGet body "email")
              && !(jGet body "email" == jGet existing "email")
              && emailClash users p body) = false := by
            rw [heqv]
            simp
          have hred : (usersPatch users p now body).2
              = (storeUpdate users p body now).2 := by
            simp [usersPatch, hge, hguard]
          rw [hred]
          refine update_emails_nodup users p now body existing hge hem hid ?_
          left
          rw [heqv]
          cases h : jGet existing "email" <;> simp
        · have hb2 : (jGet body "email" == jGet existing "email") = false := by
            simp [heqv]
          cases hcl : emailClash users p body with
          | true =>
            have hguard : (jTruthy (jGet body "email")
                && !(jGet body "email" == jGet existing "email")
                && emailClash users p body) = true := by
              rw [htr, hb2, hcl]
              rfl
            simpa [usersPatch, hge, hguard] using hem
          | false =>
            have hguard : (jTruthy (jGet body "email")
                && !(jGet body "email" == jGet existing "email")
                && emailClash users p body) = false := by
              rw [hcl]
              simp
            have hred : (usersPatch users p now body).2
                = (storeUpdate users p body now).2 := by
              simp [usersPatch, hge, hguard]
            rw [hred]
            refine update_emails_nodup users p now body existing hge hem hid ?_
            right
            exact hcl
  · intro existing hge hne hcl
    have hb2 : (jGet body "email" == jGet existing "email") = false := by
      simp [hne]
    constructor
    · simp [usersPut, hge, hb2, hcl]
    · intro htr
      simp [usersPatch, hge, hb2, hcl, htr]

/-- Closed instance of the amended C4: on the sample store (distinct ids and
emails), a validated PATCH to a fresh email keeps emails pairwise distinct. -/
theorem claim_C4_email_uniqueness_amended_witness :
    (emailsOf wUsers).Nodup
      ∧ (idsOf wUsers).Nodup
      ∧ validEmailField [("email", JVal.vStr "new@x.com")] = true
      ∧ (emailsOf (usersPatch wUsers "u-1" "t2"
          [("email", JVal.vStr "new@x.com")]).2).Nodup :=
  ⟨by decide, by decide, by decide,
    (claim_C4_email_uniqueness_amended wUsers "g" "t2" "u-1"
      [("email", JVal.vStr "new@x.com")]).2.2.2.1
      (by decide) (by decide) (by decide)⟩
